import Mathlib

/-!
Shallow embedding of `src/aggregated_range_proof/dealer.rs` from the
`bulletproofs` repository: the dealer side of the aggregated range-proof
protocol, a four-stage state machine
(`Dealer::new` then `receive_value_commitments` then
`receive_poly_commitments` then `receive_shares`).

Modelling decisions:
* Curve points (`RistrettoPoint`) and scalars (`Scalar`) are abstract types
  with the algebraic structure the dealer code uses: points form an additive
  commutative monoid (identity and `+`), scalars form a commutative ring
  (zero, `+`, powers for `exp_iter`) acting on points (`w * B`).  Point
  compression, scalar byte encoding, scalar inversion and the transcript
  challenge function are opaque collaborator functions, bundled in
  `Primitives`.
* The `ProofTranscript` is modelled as the list of events performed on it,
  in order: `commit_u64`, `commit` of a byte string, or a challenge
  derivation (recording the scalar it produced).  `challenge_scalar`
  produces a scalar that is a function of the whole event list so far and
  appends a challenge event, so a second derivation sees a different state.
* The Rust `&mut ProofTranscript` borrow is rendered by explicit state
  passing: every stage takes the transcript and returns the transcript, and
  a Rust early `return Err(..)` at a program point where the transcript has
  not been touched returns the transcript as it was at that point.
* The five distinct `&'static str` error messages of the source are
  modelled by the five-constructor enumeration `DealerError`.
* The inner-product sub-protocol is out of scope; `InnerProductProof.create`
  is modelled freely as the record of the arguments the dealer passes to it.
-/

/-- One event performed on the Fiat-Shamir transcript: a fixed-width integer
commitment (`commit_u64`), a byte-string commitment (`commit`), or a
challenge-scalar derivation recording the scalar that was produced. -/
inductive TEvent (Scalar : Type) where
  | u64 : Nat → TEvent Scalar
  | bytes : List Nat → TEvent Scalar
  | chal : Scalar → TEvent Scalar
deriving DecidableEq

/-- The transcript state: the ordered list of events performed on it. -/
abbrev ProofTranscript (Scalar : Type) := List (TEvent Scalar)

/-- Opaque collaborator operations used by the dealer: point compression to
bytes, scalar byte encoding, the transcript challenge-derivation function,
and scalar inversion.  These belong to the out-of-scope primitives and
transcript components; the dealer only uses them through this interface. -/
structure Primitives (Point Scalar : Type) where
  compress : Point → List Nat
  scalar_bytes : Scalar → List Nat
  challenge_fn : ProofTranscript Scalar → Scalar
  invert : Scalar → Scalar

/-- Transcript operation `commit_u64`: append a fixed-width integer event. -/
def ProofTranscript.commit_u64 {Scalar : Type} (t : ProofTranscript Scalar)
    (x : Nat) : ProofTranscript Scalar :=
  t ++ [TEvent.u64 x]

/-- Transcript operation `commit`: append a byte-string event. -/
def ProofTranscript.commit {Scalar : Type} (t : ProofTranscript Scalar)
    (b : List Nat) : ProofTranscript Scalar :=
  t ++ [TEvent.bytes b]

/-- Transcript operation `challenge_scalar`: derive a scalar from everything
absorbed so far and advance the transcript state by recording the
derivation, so that a second call yields a scalar derived from a different
state. -/
def ProofTranscript.challenge_scalar {Point Scalar : Type}
    (pr : Primitives Point Scalar) (t : ProofTranscript Scalar) :
    Scalar × ProofTranscript Scalar :=
  (pr.challenge_fn t, t ++ [TEvent.chal (pr.challenge_fn t)])

/-- One party's value-commitment record: `V` (commitment to the secret
value), `A`, `S` (curve points). -/
structure ValueCommitment (Point : Type) where
  V : Point
  A : Point
  S : Point
deriving DecidableEq

/-- The two-scalar challenge derived by `receive_value_commitments`. -/
structure ValueChallenge (Scalar : Type) where
  y : Scalar
  z : Scalar
deriving DecidableEq

/-- One party's polynomial-commitment record: curve points `T_1`, `T_2`. -/
structure PolyCommitment (Point : Type) where
  T_1 : Point
  T_2 : Point
deriving DecidableEq

/-- The one-scalar challenge derived by `receive_poly_commitments`. -/
structure PolyChallenge (Scalar : Type) where
  x : Scalar
deriving DecidableEq

/-- One party's final response share. -/
structure ProofShare (Point Scalar : Type) where
  value_commitment : ValueCommitment Point
  poly_commitment : PolyCommitment Point
  t_x : Scalar
  t_x_blinding : Scalar
  e_blinding : Scalar
  l_vec : List Scalar
  r_vec : List Scalar
deriving DecidableEq

/-- Per-party verification record built by `receive_shares`. -/
structure ProofShareVerifier (Point Scalar : Type) where
  proof_share : ProofShare Point Scalar
  n : Nat
  j : Nat
  value_challenge : ValueChallenge Scalar
  poly_challenge : PolyChallenge Scalar
deriving DecidableEq

/-- The fixed Pedersen generators exposed by the generator provider; the
dealer uses only the primary generator `B`. -/
structure PedersenGenerators (Point : Type) where
  B : Point

/-- The generator provider view: Pedersen generators plus the two
generator-vector sequences `G` and `H`. -/
structure GeneratorsView (Point : Type) where
  pedersen_generators : PedersenGenerators Point
  G : List Point
  H : List Point

/-- Geometric sequence of powers, the model of `util::exp_iter`: the
iterator yielding `1, x, x^2, ...`. -/
def exp_iter {Scalar : Type} [CommRing Scalar] (x : Scalar) : Nat → Scalar :=
  fun i => x ^ i

/-- Free model of the opaque inner-product compression sub-protocol proof:
the record of the arguments the dealer passed to
`inner_product_proof::InnerProductProof::create`, in the order of that
call (transcript at call time, `Q`, the scalar sequence, `G`, `H`,
`l_vec`, `r_vec`). -/
structure InnerProductProof (Point Scalar : Type) where
  transcript : ProofTranscript Scalar
  Q : Point
  H_factors : Nat → Scalar
  G_vec : List Point
  H_vec : List Point
  l_vec : List Scalar
  r_vec : List Scalar

/-- Model of `InnerProductProof::create`: it is opaque to the dealer, so the
free interpretation records exactly its arguments. -/
def InnerProductProof.create {Point Scalar : Type}
    (transcript : ProofTranscript Scalar) (Q : Point)
    (H_factors : Nat → Scalar) (G_vec H_vec : List Point)
    (l_vec r_vec : List Scalar) : InnerProductProof Point Scalar :=
  ⟨transcript, Q, H_factors, G_vec, H_vec, l_vec, r_vec⟩

/-- The final aggregated proof assembled by `receive_shares`. -/
structure AggregatedProof (Point Scalar : Type) where
  n : Nat
  value_commitments : List Point
  A : Point
  S : Point
  T_1 : Point
  T_2 : Point
  t_x : Scalar
  t_x_blinding : Scalar
  e_blinding : Scalar
  ipp_proof : InnerProductProof Point Scalar

/-- The five distinct `&'static str` error messages of the source, one
constructor each.  `invalidBitWidth` is the `n` message, `invalidPartyCount`
the `m` message, and the three length-mismatch constructors are the per-stage
length messages. -/
inductive DealerError where
  | invalidBitWidth
  | invalidPartyCount
  | valueCommitmentsLengthMismatch
  | polyCommitmentsLengthMismatch
  | proofSharesLengthMismatch
deriving DecidableEq

/-- Model of Rust `usize::is_power_of_two`: true exactly when the number is
`2 ^ k` for some `k` (so false at `0`). -/
def usize_is_power_of_two (n : Nat) : Bool :=
  (List.range (n + 1)).any (fun k => n == 2 ^ k)

/-- State after `Dealer::new`: the dealer knows `n` and `m` (the transcript
borrow is threaded separately, see the module docstring). -/
structure DealerAwaitingValueCommitments where
  n : Nat
  m : Nat
deriving DecidableEq

/-- State after `receive_value_commitments`. -/
structure DealerAwaitingPolyCommitments (Scalar : Type) where
  n : Nat
  m : Nat
  value_challenge : ValueChallenge Scalar
deriving DecidableEq

/-- State after `receive_poly_commitments`. -/
structure DealerAwaitingProofShares (Scalar : Type) where
  n : Nat
  m : Nat
  value_challenge : ValueChallenge Scalar
  poly_challenge : PolyChallenge Scalar
deriving DecidableEq

/-- `Dealer::new`: validate `n` (power of two and at most 64) and `m`
(power of two), then absorb `n` and `m` as fixed-width integers and return
the first awaiting state.  The returned transcript is the state of the
`&mut` transcript when the function returns. -/
def Dealer.new {Scalar : Type} (n m : Nat) (transcript : ProofTranscript Scalar) :
    Except DealerError DealerAwaitingValueCommitments × ProofTranscript Scalar :=
  if ¬ usize_is_power_of_two n ∨ n > 64 then
    (Except.error DealerError.invalidBitWidth, transcript)
  else if ¬ usize_is_power_of_two m then
    (Except.error DealerError.invalidPartyCount, transcript)
  else
    (Except.ok ⟨n, m⟩, (transcript.commit_u64 n).commit_u64 m)

/-- Body of the per-record loop of `receive_value_commitments`: commit the
record's `V` individually, and add its `A` and `S` into the running sums. -/
def vcStep {Point Scalar : Type} [AddCommMonoid Point]
    (pr : Primitives Point Scalar)
    (acc : ProofTranscript Scalar × Point × Point)
    (commitment : ValueCommitment Point) :
    ProofTranscript Scalar × Point × Point :=
  (acc.1.commit (pr.compress commitment.V), acc.2.1 + commitment.A,
    acc.2.2 + commitment.S)

/-- `DealerAwaitingValueCommitments::receive_value_commitments`: check the
input length against `m`; on success, for each record in input order commit
its `V` and accumulate `A` and `S` sums, then commit the `A` sum and the `S`
sum, derive `y` then `z`, and return the next state together with the
challenge (which is also retained inside the next state). -/
def receive_value_commitments {Point Scalar : Type} [AddCommMonoid Point]
    (pr : Primitives Point Scalar)
    (st : DealerAwaitingValueCommitments)
    (value_commitments : List (ValueCommitment Point))
    (transcript : ProofTranscript Scalar) :
    Except DealerError
      (DealerAwaitingPolyCommitments Scalar × ValueChallenge Scalar) ×
      ProofTranscript Scalar :=
  if st.m ≠ value_commitments.length then
    (Except.error DealerError.valueCommitmentsLengthMismatch, transcript)
  else
    let folded := value_commitments.foldl (vcStep pr) (transcript, 0, 0)
    let t1 := folded.1.commit (pr.compress folded.2.1)
    let t2 := t1.commit (pr.compress folded.2.2)
    let yc := t2.challenge_scalar pr
    let zc := yc.2.challenge_scalar pr
    let value_challenge : ValueChallenge Scalar := ⟨yc.1, zc.1⟩
    (Except.ok (⟨st.n, st.m, value_challenge⟩, value_challenge), zc.2)

/-- Body of the per-record loop of `receive_poly_commitments`: add the
record's `T_1` and `T_2` into the running sums (no transcript event). -/
def pcStep {Point : Type} [AddCommMonoid Point]
    (acc : Point × Point) (commitment : PolyCommitment Point) :
    Point × Point :=
  (acc.1 + commitment.T_1, acc.2 + commitment.T_2)

/-- `DealerAwaitingPolyCommitments::receive_poly_commitments`: check the
input length against `m`; on success accumulate the `T_1` and `T_2` sums
over all records, commit the two sums, derive one scalar `x`, and return the
next state together with the challenge. -/
def receive_poly_commitments {Point Scalar : Type} [AddCommMonoid Point]
    (pr : Primitives Point Scalar)
    (st : DealerAwaitingPolyCommitments Scalar)
    (poly_commitments : List (PolyCommitment Point))
    (transcript : ProofTranscript Scalar) :
    Except DealerError
      (DealerAwaitingProofShares Scalar × PolyChallenge Scalar) ×
      ProofTranscript Scalar :=
  if st.m ≠ poly_commitments.length then
    (Except.error DealerError.polyCommitmentsLengthMismatch, transcript)
  else
    let sums := poly_commitments.foldl pcStep (0, 0)
    let t1 := transcript.commit (pr.compress sums.1)
    let t2 := t1.commit (pr.compress sums.2)
    let xc := t2.challenge_scalar pr
    let poly_challenge : PolyChallenge Scalar := ⟨xc.1⟩
    (Except.ok
      (⟨st.n, st.m, st.value_challenge, poly_challenge⟩, poly_challenge),
      xc.2)

/-- `DealerAwaitingProofShares::receive_shares`: check the input length
against `m`; on success build one `ProofShareVerifier` per share indexed by
position, collect the `V`s, sum the `A`, `S`, `T_1`, `T_2` points and the
`t_x`, `t_x_blinding`, `e_blinding` scalars, commit the three scalar sums in
that order, derive `w`, compute `Q = w * B`, concatenate all `l_vec`s and
all `r_vec`s in party order, invoke the inner-product sub-protocol, and
assemble the aggregated proof. -/
def receive_shares {Point Scalar : Type} [AddCommMonoid Point]
    [CommRing Scalar] [SMul Scalar Point]
    (pr : Primitives Point Scalar)
    (st : DealerAwaitingProofShares Scalar)
    (proof_shares : List (ProofShare Point Scalar))
    (gen : GeneratorsView Point)
    (transcript : ProofTranscript Scalar) :
    Except DealerError
      (AggregatedProof Point Scalar × List (ProofShareVerifier Point Scalar)) ×
      ProofTranscript Scalar :=
  if st.m ≠ proof_shares.length then
    (Except.error DealerError.proofSharesLengthMismatch, transcript)
  else
    let share_verifiers := proof_shares.enum.map (fun je =>
      ({ proof_share := je.2, n := st.n, j := je.1,
         value_challenge := st.value_challenge,
         poly_challenge := st.poly_challenge } : ProofShareVerifier Point Scalar))
    let value_commitments := proof_shares.map (fun ps => ps.value_commitment.V)
    let A := proof_shares.foldl (fun A ps => A + ps.value_commitment.A) 0
    let S := proof_shares.foldl (fun S ps => S + ps.value_commitment.S) 0
    let T_1 := proof_shares.foldl (fun T ps => T + ps.poly_commitment.T_1) 0
    let T_2 := proof_shares.foldl (fun T ps => T + ps.poly_commitment.T_2) 0
    let t := proof_shares.foldl (fun acc ps => acc + ps.t_x) 0
    let t_x_blinding := proof_shares.foldl (fun acc ps => acc + ps.t_x_blinding) 0
    let e_blinding := proof_shares.foldl (fun acc ps => acc + ps.e_blinding) 0
    let t1 := transcript.commit (pr.scalar_bytes t)
    let t2 := t1.commit (pr.scalar_bytes t_x_blinding)
    let t3 := t2.commit (pr.scalar_bytes e_blinding)
    let wc := t3.challenge_scalar pr
    let Q := wc.1 • gen.pedersen_generators.B
    let l_vec : List Scalar := proof_shares.flatMap (fun ps => ps.l_vec)
    let r_vec : List Scalar := proof_shares.flatMap (fun ps => ps.r_vec)
    let ipp_proof := InnerProductProof.create wc.2 Q
      (exp_iter (pr.invert st.value_challenge.y)) gen.G gen.H l_vec r_vec
    let aggregated_proof : AggregatedProof Point Scalar :=
      { n := st.n, value_commitments := value_commitments, A := A, S := S,
        T_1 := T_1, T_2 := T_2, t_x := t, t_x_blinding := t_x_blinding,
        e_blinding := e_blinding, ipp_proof := ipp_proof }
    (Except.ok (aggregated_proof, share_verifiers), wc.2)

/-- The full dealer pipeline, `Dealer::new` through `receive_shares`,
threading the transcript through every stage and returning the two
challenges, the aggregated proof and the verifier records. -/
def runPipeline {Point Scalar : Type} [AddCommMonoid Point]
    [CommRing Scalar] [SMul Scalar Point]
    (pr : Primitives Point Scalar) (gen : GeneratorsView Point)
    (n m : Nat) (transcript : ProofTranscript Scalar)
    (vcs : List (ValueCommitment Point)) (pcs : List (PolyCommitment Point))
    (shares : List (ProofShare Point Scalar)) :
    Except DealerError
      (ValueChallenge Scalar × PolyChallenge Scalar ×
        AggregatedProof Point Scalar × List (ProofShareVerifier Point Scalar)) :=
  match Dealer.new n m transcript with
  | (Except.error e, _) => Except.error e
  | (Except.ok st1, t1) =>
    match receive_value_commitments pr st1 vcs t1 with
    | (Except.error e, _) => Except.error e
    | (Except.ok (st2, vch), t2) =>
      match receive_poly_commitments pr st2 pcs t2 with
      | (Except.error e, _) => Except.error e
      | (Except.ok (st3, pch), t3) =>
        match receive_shares pr st3 shares gen t3 with
        | (Except.error e, _) => Except.error e
        | (Except.ok (proof, verifiers), _) =>
          Except.ok (vch, pch, proof, verifiers)

/-- Concrete instantiation of the opaque primitives over `Int` points and
`Int` scalars, used to evaluate the dealer on concrete inputs. -/
def demoPrimitives : Primitives Int Int where
  compress := fun p => [p.natAbs]
  scalar_bytes := fun s => [s.natAbs]
  challenge_fn := fun t => (t.length : Int)
  invert := fun s => s

/-- Concrete value commitment for party 0. -/
def demoVC1 : ValueCommitment Int := ⟨2, 3, 5⟩

/-- Concrete value commitment for party 1. -/
def demoVC2 : ValueCommitment Int := ⟨7, 11, 13⟩

/-- Concrete poly commitment for party 0. -/
def demoPC1 : PolyCommitment Int := ⟨17, 19⟩

/-- Concrete poly commitment for party 1. -/
def demoPC2 : PolyCommitment Int := ⟨23, 29⟩

/-- Concrete proof share for party 0, with vectors of length `n = 2`. -/
def demoShare1 : ProofShare Int Int := ⟨demoVC1, demoPC1, 1, 2, 3, [4, 5], [6, 7]⟩

/-- Concrete proof share for party 1, with vectors of length `n = 2`. -/
def demoShare2 : ProofShare Int Int :=
  ⟨demoVC2, demoPC2, 31, 37, 41, [43, 47], [53, 59]⟩

/-- Concrete proof share whose vectors have the wrong lengths (1 and 3
instead of `n = 2`). -/
def demoBadShare : ProofShare Int Int := ⟨demoVC1, demoPC1, 1, 2, 3, [4], [6, 7, 8]⟩

/-- Concrete generator view. -/
def demoGen : GeneratorsView Int := ⟨⟨9⟩, [1, 2, 3, 4], [5, 6, 7, 8]⟩

/-- Concrete `DealerAwaitingProofShares` state with `n = 2`, `m = 2`. -/
def demoState3 : DealerAwaitingProofShares Int := ⟨2, 2, ⟨61, 67⟩, ⟨71⟩⟩

/-- The Boolean power-of-two test agrees with the mathematical predicate. -/
theorem usize_is_power_of_two_iff (n : Nat) :
    usize_is_power_of_two n = true ↔ ∃ k, n = 2 ^ k := by
  unfold usize_is_power_of_two
  rw [List.any_eq_true]
  constructor
  · rintro ⟨k, _, hk⟩
    exact ⟨k, by simpa using hk⟩
  · rintro ⟨k, rfl⟩
    refine ⟨k, List.mem_range.mpr ?_, by simp⟩
    exact Nat.lt_succ_of_lt (Nat.lt_two_pow k)

/-- C3: `Dealer::new` fails with the `InvalidBitWidth` error exactly when
`n` is not a power of two or `n > 64` (leaving the transcript untouched),
fails with the `InvalidPartyCount` error exactly when `n` is valid but `m`
is not a power of two (transcript untouched), and otherwise succeeds,
absorbing `n` then `m` as fixed-width integers in that order and returning
the next-stage state holding `n` and `m`. -/
theorem Dealer.new_spec {Scalar : Type} (n m : Nat) (t : ProofTranscript Scalar) :
    ((¬ (∃ k, n = 2 ^ k) ∨ 64 < n) →
      Dealer.new n m t = (Except.error DealerError.invalidBitWidth, t)) ∧
    ((∃ k, n = 2 ^ k) → n ≤ 64 → ¬ (∃ k, m = 2 ^ k) →
      Dealer.new n m t = (Except.error DealerError.invalidPartyCount, t)) ∧
    ((∃ k, n = 2 ^ k) → n ≤ 64 → (∃ k, m = 2 ^ k) →
      Dealer.new n m t =
        (Except.ok ⟨n, m⟩, t ++ [TEvent.u64 n, TEvent.u64 m])) := by
  refine ⟨?_, ?_, ?_⟩
  · intro h
    have hc : ¬ (usize_is_power_of_two n = true) ∨ 64 < n := by
      rcases h with h | h
      · exact Or.inl (fun hb => h ((usize_is_power_of_two_iff n).mp hb))
      · exact Or.inr h
    unfold Dealer.new
    rw [if_pos hc]
  · intro hn hle hm
    have hc : ¬ (¬ (usize_is_power_of_two n = true) ∨ 64 < n) := by
      push_neg
      exact ⟨(usize_is_power_of_two_iff n).mpr hn, hle⟩
    have hcm : ¬ (usize_is_power_of_two m = true) :=
      fun hb => hm ((usize_is_power_of_two_iff m).mp hb)
    unfold Dealer.new
    rw [if_neg hc, if_pos hcm]
  · intro hn hle hm
    have hc : ¬ (¬ (usize_is_power_of_two n = true) ∨ 64 < n) := by
      push_neg
      exact ⟨(usize_is_power_of_two_iff n).mpr hn, hle⟩
    have hcm : ¬ ¬ (usize_is_power_of_two m = true) :=
      not_not_intro ((usize_is_power_of_two_iff m).mpr hm)
    unfold Dealer.new
    rw [if_neg hc, if_neg hcm]
    simp [ProofTranscript.commit_u64]

/-- Witness for C3: at `n = 4`, `m = 2` the hypotheses of the success branch
hold and setup absorbs `4` then `2`. -/
theorem Dealer.new_spec_witness :
    Dealer.new 4 2 ([] : ProofTranscript Int) =
      (Except.ok ⟨4, 2⟩, [TEvent.u64 4, TEvent.u64 2]) :=
  (Dealer.new_spec 4 2 []).2.2 ⟨2, by decide⟩ (by decide) ⟨1, by decide⟩

/-- C10: `Dealer::new` validates `n` before `m`: when both `n` and `m` are
invalid, the error returned is the `InvalidBitWidth` error (the `n` error),
not the `InvalidPartyCount` error. -/
theorem Dealer.new_checks_n_first {Scalar : Type} (n m : Nat)
    (t : ProofTranscript Scalar)
    (hn : ¬ (∃ k, n = 2 ^ k) ∨ 64 < n) (_hm : ¬ (∃ k, m = 2 ^ k)) :
    Dealer.new n m t = (Except.error DealerError.invalidBitWidth, t) := by
  have hc : ¬ (usize_is_power_of_two n = true) ∨ 64 < n := by
    rcases hn with h | h
    · exact Or.inl (fun hb => h ((usize_is_power_of_two_iff n).mp hb))
    · exact Or.inr h
  unfold Dealer.new
  rw [if_pos hc]

/-- Witness for C10: at `n = 3`, `m = 3` (both invalid) the error is the
`InvalidBitWidth` one. -/
theorem Dealer.new_checks_n_first_witness :
    Dealer.new 3 3 ([] : ProofTranscript Int) =
      (Except.error DealerError.invalidBitWidth, []) :=
  Dealer.new_checks_n_first 3 3 []
    (Or.inl (by
      rintro ⟨k, hk⟩
      rcases Nat.lt_or_ge k 2 with h | h
      · interval_cases k <;> simp_all
      · have : 4 ≤ 2 ^ k := by
          calc 4 = 2 ^ 2 := by decide
          _ ≤ 2 ^ k := Nat.pow_le_pow_right (by decide) h
        omega))
    (by
      rintro ⟨k, hk⟩
      rcases Nat.lt_or_ge k 2 with h | h
      · interval_cases k <;> simp_all
      · have : 4 ≤ 2 ^ k := by
          calc 4 = 2 ^ 2 := by decide
          _ ≤ 2 ^ k := Nat.pow_le_pow_right (by decide) h
        omega)

/-- The per-record loop of `receive_value_commitments` appends exactly the
compressed `V`s as byte events, in input order, and adds the `A`s and `S`s
into the accumulators. -/
theorem foldl_vcStep {Point Scalar : Type} [AddCommMonoid Point]
    (pr : Primitives Point Scalar) (vcs : List (ValueCommitment Point))
    (t : ProofTranscript Scalar) (A S : Point) :
    vcs.foldl (vcStep pr) (t, A, S) =
      (t ++ vcs.map (fun vc => TEvent.bytes (pr.compress vc.V)),
        A + (vcs.map (fun vc => vc.A)).sum,
        S + (vcs.map (fun vc => vc.S)).sum) := by
  induction vcs generalizing t A S with
  | nil => simp
  | cons hd tl ih =>
    simp [vcStep, ProofTranscript.commit, ih, List.append_assoc, add_assoc]

/-- The per-record loop of `receive_poly_commitments` adds the `T_1`s and
`T_2`s into the accumulators and touches nothing else. -/
theorem foldl_pcStep {Point : Type} [AddCommMonoid Point]
    (pcs : List (PolyCommitment Point)) (a b : Point) :
    pcs.foldl pcStep (a, b) =
      (a + (pcs.map (fun pc => pc.T_1)).sum,
        b + (pcs.map (fun pc => pc.T_2)).sum) := by
  induction pcs generalizing a b with
  | nil => simp
  | cons hd tl ih => simp [pcStep, ih, add_assoc]

/-- C1: on success `receive_value_commitments` performs its transcript
operations in exactly this order: it absorbs each record's `V` in compressed
encoding in input order (while accumulating the `A` and `S` sums by group
addition, absorbing no individual `A` or `S`), then absorbs the `A` sum's
encoding, then the `S` sum's encoding, then derives `y` strictly before `z`
(the `z` derivation sees the transcript extended by the `y` derivation), and
returns the next state together with `ValueChallenge y z`, the same
challenge being retained inside the next state. -/
theorem receive_value_commitments_spec {Point Scalar : Type} [AddCommMonoid Point]
    (pr : Primitives Point Scalar) (st : DealerAwaitingValueCommitments)
    (vcs : List (ValueCommitment Point)) (t : ProofTranscript Scalar)
    (hlen : vcs.length = st.m) :
    receive_value_commitments pr st vcs t =
      (let tV := t ++ vcs.map (fun vc => TEvent.bytes (pr.compress vc.V))
       let tS := tV ++
         [TEvent.bytes (pr.compress (vcs.map (fun vc => vc.A)).sum),
          TEvent.bytes (pr.compress (vcs.map (fun vc => vc.S)).sum)]
       let y := pr.challenge_fn tS
       let ty := tS ++ [TEvent.chal y]
       let z := pr.challenge_fn ty
       (Except.ok (⟨st.n, st.m, ⟨y, z⟩⟩, ⟨y, z⟩), ty ++ [TEvent.chal z])) := by
  unfold receive_value_commitments
  rw [if_neg (fun h => h hlen.symm)]
  simp only [foldl_vcStep]
  simp [ProofTranscript.commit, ProofTranscript.challenge_scalar,
    List.append_assoc]

/-- Witness for C1: the two-party concrete run satisfies the length
hypothesis and the trace equation. -/
theorem receive_value_commitments_spec_witness :
    ([demoVC1, demoVC2].length = (⟨2, 2⟩ : DealerAwaitingValueCommitments).m) ∧
    receive_value_commitments demoPrimitives ⟨2, 2⟩ [demoVC1, demoVC2] [] =
      (let tV := ([] : ProofTranscript Int) ++
        [demoVC1, demoVC2].map (fun vc => TEvent.bytes (demoPrimitives.compress vc.V))
       let tS := tV ++
         [TEvent.bytes (demoPrimitives.compress
            ([demoVC1, demoVC2].map (fun vc => vc.A)).sum),
          TEvent.bytes (demoPrimitives.compress
            ([demoVC1, demoVC2].map (fun vc => vc.S)).sum)]
       let y := demoPrimitives.challenge_fn tS
       let ty := tS ++ [TEvent.chal y]
       let z := demoPrimitives.challenge_fn ty
       (Except.ok (⟨2, 2, ⟨y, z⟩⟩, ⟨y, z⟩), ty ++ [TEvent.chal z])) :=
  ⟨by decide,
    receive_value_commitments_spec demoPrimitives ⟨2, 2⟩ [demoVC1, demoVC2] []
      (by decide)⟩

/-- C6: on success `receive_poly_commitments` performs no per-record
transcript absorption: it accumulates the `T_1` and `T_2` sums by group
addition over all records, absorbs only the `T_1` sum then the `T_2` sum,
derives exactly one challenge scalar `x`, and returns the next state
together with `PolyChallenge x`. -/
theorem receive_poly_commitments_spec {Point Scalar : Type} [AddCommMonoid Point]
    (pr : Primitives Point Scalar) (st : DealerAwaitingPolyCommitments Scalar)
    (pcs : List (PolyCommitment Point)) (t : ProofTranscript Scalar)
    (hlen : pcs.length = st.m) :
    receive_poly_commitments pr st pcs t =
      (let tT := t ++
         [TEvent.bytes (pr.compress (pcs.map (fun pc => pc.T_1)).sum),
          TEvent.bytes (pr.compress (pcs.map (fun pc => pc.T_2)).sum)]
       let x := pr.challenge_fn tT
       (Except.ok (⟨st.n, st.m, st.value_challenge, ⟨x⟩⟩, ⟨x⟩),
         tT ++ [TEvent.chal x])) := by
  unfold receive_poly_commitments
  rw [if_neg (fun h => h hlen.symm)]
  simp only [foldl_pcStep]
  simp [ProofTranscript.commit, ProofTranscript.challenge_scalar,
    List.append_assoc]

/-- Witness for C6: the two-party concrete run satisfies the length
hypothesis and the trace equation. -/
theorem receive_poly_commitments_spec_witness :
    ([demoPC1, demoPC2].length =
      (⟨2, 2, ⟨61, 67⟩⟩ : DealerAwaitingPolyCommitments Int).m) ∧
    receive_poly_commitments demoPrimitives ⟨2, 2, ⟨61, 67⟩⟩ [demoPC1, demoPC2] [] =
      (let tT := ([] : ProofTranscript Int) ++
         [TEvent.bytes (demoPrimitives.compress
            ([demoPC1, demoPC2].map (fun pc => pc.T_1)).sum),
          TEvent.bytes (demoPrimitives.compress
            ([demoPC1, demoPC2].map (fun pc => pc.T_2)).sum)]
       let x := demoPrimitives.challenge_fn tT
       (Except.ok (⟨2, 2, ⟨61, 67⟩, ⟨x⟩⟩, ⟨x⟩), tT ++ [TEvent.chal x])) :=
  ⟨by decide,
    receive_poly_commitments_spec demoPrimitives ⟨2, 2, ⟨61, 67⟩⟩
      [demoPC1, demoPC2] [] (by decide)⟩

/-- A left fold that adds an extracted summand per element computes the
starting value plus the sum of the extracted values. -/
theorem foldl_add_eq_sum {M α : Type} [AddCommMonoid M] (f : α → M)
    (l : List α) (a : M) :
    l.foldl (fun acc x => acc + f x) a = a + (l.map f).sum := by
  induction l generalizing a with
  | nil => simp
  | cons hd tl ih => simp [ih, add_assoc]

/-- Concatenating per-element lists of one common length `k` yields a list
of length `k` times the number of elements. -/
theorem flatMap_length_const {α β : Type} (f : α → List β) (l : List α)
    (k : Nat) (h : ∀ a ∈ l, (f a).length = k) :
    (l.flatMap f).length = k * l.length := by
  induction l with
  | nil => simp
  | cons hd tl ih =>
    have h1 := h hd (List.mem_cons_self hd tl)
    have h2 : (tl.flatMap f).length = k * tl.length :=
      ih (fun a ha => h a (List.mem_cons_of_mem hd ha))
    simp only [List.flatMap_cons, List.length_append, List.length_cons, h1, h2]
    ring

/-- C4: each of the three receive operations fails with its length-mismatch
error exactly when the input length differs from `m`, and on that failure it
performs no transcript mutation at all (the transcript comes back exactly as
it went in, the length check preceding every absorption and derivation);
when the length does equal `m` the operation succeeds. -/
theorem receive_length_check_spec {Point Scalar : Type} [AddCommMonoid Point]
    [CommRing Scalar] [SMul Scalar Point]
    (pr : Primitives Point Scalar)
    (st1 : DealerAwaitingValueCommitments)
    (st2 : DealerAwaitingPolyCommitments Scalar)
    (st3 : DealerAwaitingProofShares Scalar)
    (vcs : List (ValueCommitment Point)) (pcs : List (PolyCommitment Point))
    (shares : List (ProofShare Point Scalar)) (gen : GeneratorsView Point)
    (t : ProofTranscript Scalar) :
    (vcs.length ≠ st1.m →
      receive_value_commitments pr st1 vcs t =
        (Except.error DealerError.valueCommitmentsLengthMismatch, t)) ∧
    (vcs.length = st1.m →
      ∃ r t2, receive_value_commitments pr st1 vcs t = (Except.ok r, t2)) ∧
    (pcs.length ≠ st2.m →
      receive_poly_commitments pr st2 pcs t =
        (Except.error DealerError.polyCommitmentsLengthMismatch, t)) ∧
    (pcs.length = st2.m →
      ∃ r t2, receive_poly_commitments pr st2 pcs t = (Except.ok r, t2)) ∧
    (shares.length ≠ st3.m →
      receive_shares pr st3 shares gen t =
        (Except.error DealerError.proofSharesLengthMismatch, t)) ∧
    (shares.length = st3.m →
      ∃ r t2, receive_shares pr st3 shares gen t = (Except.ok r, t2)) := by
  refine ⟨?_, ?_, ?_, ?_, ?_, ?_⟩
  · intro h
    unfold receive_value_commitments
    rw [if_pos (fun hc => h hc.symm)]
  · intro h
    unfold receive_value_commitments
    rw [if_neg (fun hc => hc h.symm)]
    exact ⟨_, _, rfl⟩
  · intro h
    unfold receive_poly_commitments
    rw [if_pos (fun hc => h hc.symm)]
  · intro h
    unfold receive_poly_commitments
    rw [if_neg (fun hc => hc h.symm)]
    exact ⟨_, _, rfl⟩
  · intro h
    unfold receive_shares
    rw [if_pos (fun hc => h hc.symm)]
  · intro h
    unfold receive_shares
    rw [if_neg (fun hc => hc h.symm)]
    exact ⟨_, _, rfl⟩

/-- Witness for C4: with `m = 2`, each stage rejects a length-1 input
leaving the transcript untouched, and accepts a length-2 input. -/
theorem receive_length_check_spec_witness :
    (receive_value_commitments demoPrimitives ⟨2, 2⟩ [demoVC1] [] =
      (Except.error DealerError.valueCommitmentsLengthMismatch, [])) ∧
    (∃ r t2, receive_value_commitments demoPrimitives ⟨2, 2⟩
      [demoVC1, demoVC2] [] = (Except.ok r, t2)) ∧
    (receive_poly_commitments demoPrimitives ⟨2, 2, ⟨61, 67⟩⟩ [demoPC1] [] =
      (Except.error DealerError.polyCommitmentsLengthMismatch, [])) ∧
    (∃ r t2, receive_poly_commitments demoPrimitives ⟨2, 2, ⟨61, 67⟩⟩
      [demoPC1, demoPC2] [] = (Except.ok r, t2)) ∧
    (receive_shares demoPrimitives demoState3 [demoShare1] demoGen [] =
      (Except.error DealerError.proofSharesLengthMismatch, [])) ∧
    (∃ r t2, receive_shares demoPrimitives demoState3
      [demoShare1, demoShare2] demoGen [] = (Except.ok r, t2)) := by
  have h1 := receive_length_check_spec demoPrimitives ⟨2, 2⟩ ⟨2, 2, ⟨61, 67⟩⟩
    demoState3 [demoVC1] [demoPC1] [demoShare1] demoGen []
  have h2 := receive_length_check_spec demoPrimitives ⟨2, 2⟩ ⟨2, 2, ⟨61, 67⟩⟩
    demoState3 [demoVC1, demoVC2] [demoPC1, demoPC2] [demoShare1, demoShare2]
    demoGen []
  exact ⟨h1.1 (by decide), h2.2.1 (by decide), h1.2.2.1 (by decide),
    h2.2.2.2.1 (by decide), h1.2.2.2.2.1 (by decide), h2.2.2.2.2.2 (by decide)⟩

/-- C2: on success `receive_shares` absorbs the three summed scalars in the
fixed order `t_x`, `t_x_blinding`, `e_blinding`, derives one combining
scalar `w`, computes `Q = w * B` with `B` the generator provider's primary
generator, concatenates all parties' `l_vec`s back-to-back in party order
and likewise the `r_vec`s, and invokes the inner-product sub-protocol with
the transcript, `Q`, the powers of the inverse of `y`, the generator
vectors `G` and `H`, and the two concatenations; when every share's vectors
have length `n` the concatenations have total length `n * m`. -/
theorem receive_shares_ipp_spec {Point Scalar : Type} [AddCommMonoid Point]
    [CommRing Scalar] [SMul Scalar Point]
    (pr : Primitives Point Scalar) (st : DealerAwaitingProofShares Scalar)
    (shares : List (ProofShare Point Scalar)) (gen : GeneratorsView Point)
    (t : ProofTranscript Scalar) (hlen : shares.length = st.m) :
    (let tsum := t ++
       [TEvent.bytes (pr.scalar_bytes (shares.map (fun ps => ps.t_x)).sum),
        TEvent.bytes (pr.scalar_bytes (shares.map (fun ps => ps.t_x_blinding)).sum),
        TEvent.bytes (pr.scalar_bytes (shares.map (fun ps => ps.e_blinding)).sum)]
     let w := pr.challenge_fn tsum
     let tw := tsum ++ [TEvent.chal w]
     ∃ proof verifiers,
       receive_shares pr st shares gen t = (Except.ok (proof, verifiers), tw) ∧
       proof.ipp_proof =
         ⟨tw, w • gen.pedersen_generators.B,
          exp_iter (pr.invert st.value_challenge.y), gen.G, gen.H,
          shares.flatMap (fun ps => ps.l_vec),
          shares.flatMap (fun ps => ps.r_vec)⟩) ∧
    ((∀ ps ∈ shares, ps.l_vec.length = st.n) →
      (shares.flatMap (fun ps => ps.l_vec)).length = st.n * st.m) ∧
    ((∀ ps ∈ shares, ps.r_vec.length = st.n) →
      (shares.flatMap (fun ps => ps.r_vec)).length = st.n * st.m) := by
  refine ⟨?_, ?_, ?_⟩
  · unfold receive_shares
    rw [if_neg (fun hc => hc hlen.symm)]
    simp only [foldl_add_eq_sum, zero_add]
    simp only [ProofTranscript.commit, ProofTranscript.challenge_scalar,
      InnerProductProof.create, List.append_assoc, List.cons_append,
      List.nil_append]
    exact ⟨_, _, rfl, rfl⟩
  · intro h
    rw [flatMap_length_const _ _ st.n h, hlen]
  · intro h
    rw [flatMap_length_const _ _ st.n h, hlen]

/-- Witness for C2: the two-party concrete run satisfies the length
hypothesis and the conclusion. -/
theorem receive_shares_ipp_spec_witness :
    ([demoShare1, demoShare2].length = demoState3.m) ∧
    ((let tsum := ([] : ProofTranscript Int) ++
       [TEvent.bytes (demoPrimitives.scalar_bytes
          ([demoShare1, demoShare2].map (fun ps => ps.t_x)).sum),
        TEvent.bytes (demoPrimitives.scalar_bytes
          ([demoShare1, demoShare2].map (fun ps => ps.t_x_blinding)).sum),
        TEvent.bytes (demoPrimitives.scalar_bytes
          ([demoShare1, demoShare2].map (fun ps => ps.e_blinding)).sum)]
      let w := demoPrimitives.challenge_fn tsum
      let tw := tsum ++ [TEvent.chal w]
      ∃ proof verifiers,
        receive_shares demoPrimitives demoState3 [demoShare1, demoShare2]
          demoGen [] = (Except.ok (proof, verifiers), tw) ∧
        proof.ipp_proof =
          ⟨tw, w • demoGen.pedersen_generators.B,
           exp_iter (demoPrimitives.invert demoState3.value_challenge.y),
           demoGen.G, demoGen.H,
           [demoShare1, demoShare2].flatMap (fun ps => ps.l_vec),
           [demoShare1, demoShare2].flatMap (fun ps => ps.r_vec)⟩) ∧
     ((∀ ps ∈ [demoShare1, demoShare2], ps.l_vec.length = demoState3.n) →
       ([demoShare1, demoShare2].flatMap (fun ps => ps.l_vec)).length =
         demoState3.n * demoState3.m) ∧
     ((∀ ps ∈ [demoShare1, demoShare2], ps.r_vec.length = demoState3.n) →
       ([demoShare1, demoShare2].flatMap (fun ps => ps.r_vec)).length =
         demoState3.n * demoState3.m)) :=
  ⟨by decide,
    receive_shares_ipp_spec demoPrimitives demoState3 [demoShare1, demoShare2]
      demoGen [] (by decide)⟩

/-- C5: on success the `AggregatedProof` returned by `receive_shares`
contains `n`, the list of each share's `V` in input order (collected, not
summed), the group sums of the `A`, `S`, `T_1`, `T_2` fields starting from
the identity, and the field sums of `t_x`, `t_x_blinding`, `e_blinding`
starting from zero; and exactly `m` `ProofShareVerifier` records are
returned, the one at position `j` carrying a copy of the `j`-th input
share, `n`, the index `j`, and copies of the two challenges. -/
theorem receive_shares_aggregation_spec {Point Scalar : Type}
    [AddCommMonoid Point] [CommRing Scalar] [SMul Scalar Point]
    (pr : Primitives Point Scalar) (st : DealerAwaitingProofShares Scalar)
    (shares : List (ProofShare Point Scalar)) (gen : GeneratorsView Point)
    (t : ProofTranscript Scalar) (hlen : shares.length = st.m) :
    ∃ proof verifiers t2,
      receive_shares pr st shares gen t = (Except.ok (proof, verifiers), t2) ∧
      proof.n = st.n ∧
      proof.value_commitments = shares.map (fun ps => ps.value_commitment.V) ∧
      proof.A = (shares.map (fun ps => ps.value_commitment.A)).sum ∧
      proof.S = (shares.map (fun ps => ps.value_commitment.S)).sum ∧
      proof.T_1 = (shares.map (fun ps => ps.poly_commitment.T_1)).sum ∧
      proof.T_2 = (shares.map (fun ps => ps.poly_commitment.T_2)).sum ∧
      proof.t_x = (shares.map (fun ps => ps.t_x)).sum ∧
      proof.t_x_blinding = (shares.map (fun ps => ps.t_x_blinding)).sum ∧
      proof.e_blinding = (shares.map (fun ps => ps.e_blinding)).sum ∧
      verifiers.length = st.m ∧
      (∀ j : Nat, verifiers[j]? = (shares[j]?).map
        (fun ps => ⟨ps, st.n, j, st.value_challenge, st.poly_challenge⟩)) := by
  unfold receive_shares
  rw [if_neg (fun hc => hc hlen.symm)]
  simp only [foldl_add_eq_sum, zero_add]
  refine ⟨_, _, _, rfl, rfl, rfl, rfl, rfl, rfl, rfl, rfl, rfl, rfl, ?_, ?_⟩
  · simp [hlen]
  · intro j
    rw [List.getElem?_map, List.getElem?_enum]
    cases shares[j]? <;> rfl

/-- Witness for C5: the two-party concrete run satisfies the length
hypothesis and the conclusion. -/
theorem receive_shares_aggregation_spec_witness :
    ([demoShare1, demoShare2].length = demoState3.m) ∧
    (∃ proof verifiers t2,
      receive_shares demoPrimitives demoState3 [demoShare1, demoShare2]
          demoGen [] = (Except.ok (proof, verifiers), t2) ∧
      proof.n = demoState3.n ∧
      proof.value_commitments =
        [demoShare1, demoShare2].map (fun ps => ps.value_commitment.V) ∧
      proof.A =
        ([demoShare1, demoShare2].map (fun ps => ps.value_commitment.A)).sum ∧
      proof.S =
        ([demoShare1, demoShare2].map (fun ps => ps.value_commitment.S)).sum ∧
      proof.T_1 =
        ([demoShare1, demoShare2].map (fun ps => ps.poly_commitment.T_1)).sum ∧
      proof.T_2 =
        ([demoShare1, demoShare2].map (fun ps => ps.poly_commitment.T_2)).sum ∧
      proof.t_x = ([demoShare1, demoShare2].map (fun ps => ps.t_x)).sum ∧
      proof.t_x_blinding =
        ([demoShare1, demoShare2].map (fun ps => ps.t_x_blinding)).sum ∧
      proof.e_blinding =
        ([demoShare1, demoShare2].map (fun ps => ps.e_blinding)).sum ∧
      verifiers.length = demoState3.m ∧
      (∀ j : Nat, verifiers[j]? = ([demoShare1, demoShare2][j]?).map
        (fun ps => ⟨ps, demoState3.n, j, demoState3.value_challenge,
          demoState3.poly_challenge⟩))) :=
  ⟨by decide,
    receive_shares_aggregation_spec demoPrimitives demoState3
      [demoShare1, demoShare2] demoGen [] (by decide)⟩

/-- C9: `receive_shares` performs no validation beyond the length check: any
input sequence of length `m` is accepted whatever the shares contain, and in
particular the `l_vec` and `r_vec` lengths are never checked against `n` —
the concatenated vectors handed to the inner-product sub-protocol have total
length equal to the sum of the individual vector lengths, whatever those
are. -/
theorem receive_shares_no_vector_validation {Point Scalar : Type}
    [AddCommMonoid Point] [CommRing Scalar] [SMul Scalar Point]
    (pr : Primitives Point Scalar) (st : DealerAwaitingProofShares Scalar)
    (shares : List (ProofShare Point Scalar)) (gen : GeneratorsView Point)
    (t : ProofTranscript Scalar) (hlen : shares.length = st.m) :
    ∃ proof verifiers t2,
      receive_shares pr st shares gen t = (Except.ok (proof, verifiers), t2) ∧
      proof.ipp_proof.l_vec.length =
        (shares.map (fun ps => ps.l_vec.length)).sum ∧
      proof.ipp_proof.r_vec.length =
        (shares.map (fun ps => ps.r_vec.length)).sum := by
  unfold receive_shares
  rw [if_neg (fun hc => hc hlen.symm)]
  exact ⟨_, _, _, rfl, List.length_flatMap _ _, List.length_flatMap _ _⟩

/-- Witness for C9: with `n = 2`, `m = 2`, a share whose vectors have
lengths 1 and 3 is accepted, and the concatenated vector lengths are the
sums 3 and 5, both different from `n * m = 4`. -/
theorem receive_shares_no_vector_validation_witness :
    ([demoBadShare, demoShare2].length = demoState3.m) ∧
    ((([demoBadShare, demoShare2].map (fun ps => ps.l_vec.length)).sum ≠
        demoState3.n * demoState3.m) ∧
      (([demoBadShare, demoShare2].map (fun ps => ps.r_vec.length)).sum ≠
        demoState3.n * demoState3.m)) ∧
    (∃ proof verifiers t2,
      receive_shares demoPrimitives demoState3 [demoBadShare, demoShare2]
          demoGen [] = (Except.ok (proof, verifiers), t2) ∧
      proof.ipp_proof.l_vec.length =
        ([demoBadShare, demoShare2].map (fun ps => ps.l_vec.length)).sum ∧
      proof.ipp_proof.r_vec.length =
        ([demoBadShare, demoShare2].map (fun ps => ps.r_vec.length)).sum) :=
  ⟨by decide, by decide,
    receive_shares_no_vector_validation demoPrimitives demoState3
      [demoBadShare, demoShare2] demoGen [] (by decide)⟩

/-- C7: with `m = 2`, `receive_value_commitments` rejects inputs of length
1 or 3 with the length-mismatch error, accepts inputs of length 2 with the
absorbed `A` and `S` aggregates equal to the group sums of the two inputs,
and the `A` and `S` aggregates computed by the per-record loop are invariant
under any permutation of the input sequence (group addition is commutative),
even though the per-party absorption into the transcript follows input
order. -/
theorem receive_value_commitments_m2_spec {Point Scalar : Type}
    [AddCommMonoid Point] (pr : Primitives Point Scalar)
    (st : DealerAwaitingValueCommitments) (t : ProofTranscript Scalar)
    (hm : st.m = 2) :
    (∀ v1 : ValueCommitment Point,
      receive_value_commitments pr st [v1] t =
        (Except.error DealerError.valueCommitmentsLengthMismatch, t)) ∧
    (∀ v1 v2 v3 : ValueCommitment Point,
      receive_value_commitments pr st [v1, v2, v3] t =
        (Except.error DealerError.valueCommitmentsLengthMismatch, t)) ∧
    (∀ v1 v2 : ValueCommitment Point,
      ∃ next ch t2,
        receive_value_commitments pr st [v1, v2] t =
          (Except.ok (next, ch), t2) ∧
        t2 = t ++
          [TEvent.bytes (pr.compress v1.V), TEvent.bytes (pr.compress v2.V),
           TEvent.bytes (pr.compress (v1.A + v2.A)),
           TEvent.bytes (pr.compress (v1.S + v2.S)),
           TEvent.chal ch.y, TEvent.chal ch.z]) ∧
    (∀ (vcs vcs' : List (ValueCommitment Point)) (t' : ProofTranscript Scalar)
      (A0 S0 : Point), vcs.Perm vcs' →
      (vcs.foldl (vcStep pr) (t, A0, S0)).2 =
        (vcs'.foldl (vcStep pr) (t', A0, S0)).2) := by
  refine ⟨?_, ?_, ?_, ?_⟩
  · intro v1
    unfold receive_value_commitments
    rw [if_pos (show st.m ≠ List.length [v1] by simp [hm])]
  · intro v1 v2 v3
    unfold receive_value_commitments
    rw [if_pos (show st.m ≠ List.length [v1, v2, v3] by simp [hm])]
  · intro v1 v2
    unfold receive_value_commitments
    rw [if_neg (show ¬ st.m ≠ List.length [v1, v2] by simp [hm])]
    refine ⟨_, _, _, rfl, ?_⟩
    simp [vcStep, ProofTranscript.commit, ProofTranscript.challenge_scalar,
      List.append_assoc]
  · intro vcs vcs' t' A0 S0 hperm
    rw [foldl_vcStep, foldl_vcStep]
    have hA : (vcs.map (fun vc => vc.A)).sum = (vcs'.map (fun vc => vc.A)).sum :=
      (hperm.map _).sum_eq
    have hS : (vcs.map (fun vc => vc.S)).sum = (vcs'.map (fun vc => vc.S)).sum :=
      (hperm.map _).sum_eq
    simp [hA, hS]

/-- Witness for C7: the concrete two-party state rejects length 1 and 3,
accepts `[demoVC1, demoVC2]` with summed aggregates in the trace, and the
loop aggregates agree between the two orderings of the two commitments even
from different starting transcripts. -/
theorem receive_value_commitments_m2_spec_witness :
    (receive_value_commitments demoPrimitives ⟨2, 2⟩ [demoVC1] [] =
      (Except.error DealerError.valueCommitmentsLengthMismatch, [])) ∧
    (receive_value_commitments demoPrimitives ⟨2, 2⟩ [demoVC1, demoVC1, demoVC2]
        [] = (Except.error DealerError.valueCommitmentsLengthMismatch, [])) ∧
    (∃ next ch t2,
      receive_value_commitments demoPrimitives ⟨2, 2⟩ [demoVC1, demoVC2] [] =
        (Except.ok (next, ch), t2) ∧
      t2 = ([] : ProofTranscript Int) ++
        [TEvent.bytes (demoPrimitives.compress demoVC1.V),
         TEvent.bytes (demoPrimitives.compress demoVC2.V),
         TEvent.bytes (demoPrimitives.compress (demoVC1.A + demoVC2.A)),
         TEvent.bytes (demoPrimitives.compress (demoVC1.S + demoVC2.S)),
         TEvent.chal ch.y, TEvent.chal ch.z]) ∧
    (([demoVC1, demoVC2].foldl (vcStep demoPrimitives)
        (([], 0, 0) : ProofTranscript Int × Int × Int)).2 =
      ([demoVC2, demoVC1].foldl (vcStep demoPrimitives)
        (([TEvent.u64 9], 0, 0) : ProofTranscript Int × Int × Int)).2) := by
  have h := receive_value_commitments_m2_spec demoPrimitives ⟨2, 2⟩
    ([] : ProofTranscript Int) (by decide)
  exact ⟨h.1 demoVC1, h.2.1 demoVC1 demoVC1 demoVC2, h.2.2.1 demoVC1 demoVC2,
    h.2.2.2 [demoVC1, demoVC2] [demoVC2, demoVC1] [TEvent.u64 9] 0 0
      (List.Perm.swap demoVC2 demoVC1 [])⟩

/-- C8: the full pipeline is deterministic: two runs on componentwise equal
inputs (same primitives, generators, `n`, `m`, starting transcript and
input sequences in the same order) produce equal results, in particular
identical `ValueChallenge`, `PolyChallenge` and `AggregatedProof`. -/
theorem runPipeline_deterministic {Point Scalar : Type} [AddCommMonoid Point]
    [CommRing Scalar] [SMul Scalar Point]
    (pr1 pr2 : Primitives Point Scalar) (gen1 gen2 : GeneratorsView Point)
    (n1 n2 m1 m2 : Nat) (t1 t2 : ProofTranscript Scalar)
    (vcs1 vcs2 : List (ValueCommitment Point))
    (pcs1 pcs2 : List (PolyCommitment Point))
    (shares1 shares2 : List (ProofShare Point Scalar))
    (hpr : pr1 = pr2) (hgen : gen1 = gen2) (hn : n1 = n2) (hm : m1 = m2)
    (ht : t1 = t2) (hvcs : vcs1 = vcs2) (hpcs : pcs1 = pcs2)
    (hshares : shares1 = shares2) :
    runPipeline pr1 gen1 n1 m1 t1 vcs1 pcs1 shares1 =
      runPipeline pr2 gen2 n2 m2 t2 vcs2 pcs2 shares2 := by
  subst hpr hgen hn hm ht hvcs hpcs hshares
  rfl

/-- Witness for C8: two runs of the concrete two-party pipeline coincide. -/
theorem runPipeline_deterministic_witness :
    runPipeline demoPrimitives demoGen 2 2 [] [demoVC1, demoVC2]
        [demoPC1, demoPC2] [demoShare1, demoShare2] =
      runPipeline demoPrimitives demoGen 2 2 [] [demoVC1, demoVC2]
        [demoPC1, demoPC2] [demoShare1, demoShare2] :=
  runPipeline_deterministic demoPrimitives demoPrimitives demoGen demoGen
    2 2 2 2 [] [] [demoVC1, demoVC2] [demoVC1, demoVC2]
    [demoPC1, demoPC2] [demoPC1, demoPC2] [demoShare1, demoShare2]
    [demoShare1, demoShare2] rfl rfl rfl rfl rfl rfl rfl rfl
